import Mathlib

/-!
Shallow embedding of the log harvesting and analysis pipeline
(gather_logs.py and log_analysis.py) together with proofs about the
normalization, pagination, export and aggregation routines.

Strings coming from the host are modelled as Lean Strings; the helper
functions below model the Python primitives the scripts rely on
(decimal int rendering and parsing, str.split on a one-character
separator, str.strip, datetime.strptime / strftime / timestamp) by
structural recursion so that every definition evaluates inside the
kernel.
-/

namespace LogPipeline

/-! ## Decimal digits: models Python str(int) and int(str) -/

def digitChar (d : Nat) : Char := Char.ofNat (48 + d)

def charDigit (c : Char) : Option Nat :=
  if 48 ≤ c.toNat ∧ c.toNat ≤ 57 then some (c.toNat - 48) else none

/-- Base-10 digits of a natural number, least significant first; the first
argument is fuel, which the wrapper instantiates with the number itself. -/
def natDigitsAux : Nat → Nat → List Nat
  | 0, _ => []
  | fuel + 1, n => if n = 0 then [] else n % 10 :: natDigitsAux fuel (n / 10)

def natDigits (n : Nat) : List Nat := natDigitsAux n n

/-- Decimal rendering of a natural number, as Python str() produces it. -/
def natDecRepr (n : Nat) : String :=
  if n = 0 then "0" else String.mk ((natDigits n).reverse.map digitChar)

/-- Decimal rendering of an integer, as Python str() produces it. -/
def pyIntRepr (i : Int) : String :=
  if i < 0 then String.mk ('-' :: (natDecRepr i.natAbs).data) else natDecRepr i.natAbs

def digitsOfChars : List Char → Option (List Nat)
  | [] => some []
  | c :: cs =>
    match charDigit c, digitsOfChars cs with
    | some d, some ds => some (d :: ds)
    | _, _ => none

/-- Parse an all-digit character list as a natural number; models the digit
fields matched by int() and by datetime.strptime. -/
def pyNatParseChars (cs : List Char) : Option Nat :=
  match cs with
  | [] => none
  | _ => (digitsOfChars cs).map (fun ds => Nat.ofDigits 10 ds.reverse)

/-- Python int() on a decimal string with an optional sign. -/
def pyIntParse (s : String) : Option Int :=
  match s.data with
  | [] => none
  | c :: cs =>
    if c = '-' then (pyNatParseChars cs).map (fun n => -(n : Int))
    else if c = '+' then (pyNatParseChars cs).map (fun n => (n : Int))
    else (pyNatParseChars (c :: cs)).map (fun n => (n : Int))

/-! ## Character-level string helpers (str.split, str.strip, str.join) -/

/-- Split a character list on a one-character separator; models
str.split(sep) for the single-character separators the scripts use. -/
def splitOnChar (sep : Char) : List Char → List (List Char)
  | [] => [[]]
  | c :: cs =>
    if c = sep then [] :: splitOnChar sep cs
    else
      match splitOnChar sep cs with
      | [] => [[c]]
      | p :: ps => (c :: p) :: ps

def splitStr (sep : Char) (s : String) : List String :=
  (splitOnChar sep s.data).map String.mk

/-- Python str.strip(): drop leading and trailing whitespace. -/
def pyStrip (s : String) : String :=
  String.mk (((s.data.dropWhile Char.isWhitespace).reverse.dropWhile
    Char.isWhitespace).reverse)

/-- Python sep.join(xs). -/
def strJoin (sep : String) : List String → String
  | [] => ""
  | [s] => s
  | s :: rest => s ++ sep ++ strJoin sep rest

def singleQuote : String := String.mk [Char.ofNat 39]

/-- Python str() of a list of strings, as produced for tuple-valued
StringInserts: brackets around comma-separated quoted items. -/
def pyReprStrList (xs : List String) : String :=
  "[" ++ strJoin ", " (xs.map (fun s => singleQuote ++ s ++ singleQuote)) ++ "]"

/-! ## Date and time -/

structure DateTime where
  year : Nat
  month : Nat
  day : Nat
  hour : Nat
  minute : Nat
  second : Nat
deriving DecidableEq, Repr

def isLeapYear (y : Nat) : Bool :=
  y % 4 = 0 && (y % 100 ≠ 0 || y % 400 = 0)

def daysInMonth (y m : Nat) : Nat :=
  if m = 2 then (if isLeapYear y then 29 else 28)
  else if m = 4 ∨ m = 6 ∨ m = 9 ∨ m = 11 then 30
  else 31

/-- datetime() field validation: the constructor raises ValueError outside
these ranges, so strptime only yields values satisfying them. -/
def mkDateTime (y mo d h mi s : Nat) : Option DateTime :=
  if 1 ≤ y ∧ y ≤ 9999 ∧ 1 ≤ mo ∧ mo ≤ 12 ∧ 1 ≤ d ∧ d ≤ daysInMonth y mo
     ∧ h ≤ 23 ∧ mi ≤ 59 ∧ s ≤ 61
  then some ⟨y, mo, d, h, mi, s⟩ else none

/-- A numeric strptime field of at most maxLen digits. -/
def parseField (maxLen : Nat) (s : String) : Option Nat :=
  if s.data.length = 0 ∨ maxLen < s.data.length then none else pyNatParseChars s.data

def monthNames : List String :=
  ["Jan", "Feb", "Mar", "Apr", "May", "Jun", "Jul", "Aug", "Sep", "Oct", "Nov", "Dec"]

def dayNames : List String := ["Mon", "Tue", "Wed", "Thu", "Fri", "Sat", "Sun"]

def monthFromName (s : String) : Option Nat :=
  (monthNames.findIdx? (fun m => m = s)).map (· + 1)

def parseHMS (s : String) : Option (Nat × Nat × Nat) :=
  match splitStr ':' s with
  | [hs, ms, ss] => do
    let h ← parseField 2 hs
    let mi ← parseField 2 ms
    let sec ← parseField 2 ss
    some (h, mi, sec)
  | _ => none

/-- datetime.strptime with format "%a %b %d %H:%M:%S %Y", the shape produced
by event.TimeGenerated.Format() on the sequential path. -/
def pyStrptimeA (s : String) : Option DateTime :=
  match splitStr ' ' s with
  | [wd, mon, dd, hms, yyyy] => do
    let _ ← if wd ∈ dayNames then some () else none
    let mo ← monthFromName mon
    let d ← parseField 2 dd
    let (h, mi, sec) ← parseHMS hms
    let y ← parseField 4 yyyy
    mkDateTime y mo d h mi sec
  | _ => none

def parseYMD (datePart timePart : String) : Option DateTime :=
  match splitStr '-' datePart with
  | [ys, ms, ds] => do
    let y ← parseField 4 ys
    let mo ← parseField 2 ms
    let d ← parseField 2 ds
    let (h, mi, sec) ← parseHMS timePart
    mkDateTime y mo d h mi sec
  | _ => none

/-- datetime.strptime with format "%Y-%m-%d %H:%M:%S", the canonical textual
form used throughout the pipeline. -/
def pyStrptimeB (s : String) : Option DateTime :=
  match splitStr ' ' s with
  | [datePart, timePart] => parseYMD datePart timePart
  | _ => none

/-- datetime.strptime with format "%Y-%m-%dT%H:%M:%S", applied to the first
19 characters of the SystemTime attribute on the Defender path. -/
def pyStrptimeT (s : String) : Option DateTime :=
  match splitStr 'T' s with
  | [datePart, timePart] => parseYMD datePart timePart
  | _ => none

def pad2 (n : Nat) : String := if n < 10 then "0" ++ natDecRepr n else natDecRepr n

def pad4 (n : Nat) : String :=
  if n < 10 then "000" ++ natDecRepr n
  else if n < 100 then "00" ++ natDecRepr n
  else if n < 1000 then "0" ++ natDecRepr n
  else natDecRepr n

/-- dt.strftime("%Y-%m-%d %H:%M:%S"). -/
def strftimeCanon (t : DateTime) : String :=
  pad4 t.year ++ "-" ++ pad2 t.month ++ "-" ++ pad2 t.day ++ " "
    ++ pad2 t.hour ++ ":" ++ pad2 t.minute ++ ":" ++ pad2 t.second

/-- Days since 1970-01-01 of a civil date (the standard days-from-civil
computation; all intermediate quantities are non-negative for the years
datetime admits). -/
def daysFromCivil (t : DateTime) : Int :=
  let y := if t.month ≤ 2 then t.year - 1 else t.year
  let era := y / 400
  let yoe := y - era * 400
  let mp := (t.month + 9) % 12
  let doy := (153 * mp + 2) / 5 + t.day - 1
  let doe := yoe * 365 + yoe / 4 - yoe / 100 + doy
  ((era * 146097 + doe : Nat) : Int) - 719468

/-- dt.timestamp() at second precision (host-local time modelled with a zero
UTC offset). -/
def dtTimestamp (t : DateTime) : Int :=
  daysFromCivil t * 86400 + ((t.hour * 3600 + t.minute * 60 + t.second : Nat) : Int)

/-! ## gather_logs.py: data model -/

/-- A raw record from the sequential (legacy channel) reader, with the fields
normalize_logs reads off the pywin32 event object.  timeGenerated is the
string event.TimeGenerated.Format() yields; stringInserts is None or a tuple
whose entries may be None. -/
structure RawRecord where
  timeGenerated : String
  eventType : Int
  eventID : Int
  eventCategory : Int
  sourceName : String
  stringInserts : Option (List (Option String))
  recordNumber : Int
deriving DecidableEq, Repr

/-- The Event_Category value is the integer event.EventCategory on the
sequential path and the Task element text (or the placeholder marker) on the
Defender path. -/
inductive CatVal
  | intVal (i : Int)
  | strVal (s : String)
deriving DecidableEq, Repr

/-- The canonical normalized event dictionary, with its eight fields in the
order both normalization routines construct them. -/
structure Event where
  channel : String
  time : String
  eventType : String
  eventID : Int
  eventCategory : CatVal
  source : String
  message : String
  recordNumber : Int
deriving DecidableEq, Repr

/-! ## gather_logs.py: sequential-path normalization -/

def EVENTLOG_ERROR_TYPE : Int := 1
def EVENTLOG_WARNING_TYPE : Int := 2
def EVENTLOG_INFORMATION_TYPE : Int := 4
def EVENTLOG_AUDIT_FAILURE : Int := 16

/-- The event_type_map lookup with default "OTHER". -/
def eventTypeString (t : Int) : String :=
  if t = EVENTLOG_ERROR_TYPE then "ERROR"
  else if t = EVENTLOG_AUDIT_FAILURE then "ERROR"
  else if t = EVENTLOG_WARNING_TYPE then "WARNING"
  else if t = EVENTLOG_INFORMATION_TYPE then "INFORMATION"
  else "OTHER"

/-- The message normalization of normalize_logs: None becomes the sentinel,
a tuple becomes str() of the list of its non-None entries. -/
def normalizeInserts (inserts : Option (List (Option String))) : String :=
  match inserts with
  | none => "No message data"
  | some parts => pyReprStrList (parts.filterMap id)

/-- normalize_logs: parses the generated-time string (strptime raises a
ValueError that propagates to the caller when it does not match the format),
reformats it, masks the identifier to 16 bits and maps the type code.
Returns the event dictionary, the epoch seconds of the record and the type
string, exactly like the Python function. -/
def normalize_logs (event : RawRecord) (log_type : String) :
    Except String (Event × Int × String) :=
  match pyStrptimeA event.timeGenerated with
  | none => .error "ValueError: time data does not match format"
  | some dt =>
    let formatted_time := strftimeCanon dt
    let seconds := dtTimestamp dt
    let event_type_string := eventTypeString event.eventType
    .ok ({ channel := log_type
           time := formatted_time
           eventType := event_type_string
           eventID := event.eventID.emod 65536
           eventCategory := .intVal event.eventCategory
           source := event.sourceName
           message := normalizeInserts event.stringInserts
           recordNumber := event.recordNumber }, seconds, event_type_string)

/-- date_to_sec of a record: strptime then timestamp(); None when the time
string does not parse (the Python call would raise). -/
def recSec (r : RawRecord) : Option Int := (pyStrptimeA r.timeGenerated).map dtTimestamp

def recSecD (r : RawRecord) : Int := (recSec r).getD 0

/-! ## gather_logs.py: Defender-path normalization -/

/-- The fields the XML extraction in normalize_defender_logs looks up on a
rendered Defender event.  A none field means the element (or attribute) is
absent, so the corresponding access raises and the placeholder is produced;
renderFails covers EvtRender itself raising. -/
structure DefenderXml where
  renderFails : Bool
  eventID : Option String
  provider : Option String
  timeCreated : Option String
  level : Option String
  task : Option String
  recordID : Option String
  dataFields : List (Option String)
deriving DecidableEq, Repr

def defenderChannelName : String := "Microsoft-Windows-Windows Defender/Operational"

/-- map_defender_level. -/
def map_defender_level (level : Int) : String :=
  if level ≤ 1 then "CRITICAL"
  else if level = 2 then "ERROR"
  else if level = 3 then "WARNING"
  else if level = 4 then "INFORMATION"
  else "OTHER"

def optField (err : String) : Option String → Except String String
  | none => .error err
  | some s => .ok s

def pyIntE (s : String) : Except String Int :=
  match pyIntParse s with
  | none => .error "ValueError: invalid literal for int"
  | some i => .ok i

/-- The body of the try block in normalize_defender_logs: every failure
point surfaces as an error that the wrapper below turns into the
placeholder event. -/
def normalizeDefenderCore (x : DefenderXml) : Except String Event :=
  if x.renderFails then .error "EvtRender failed" else do
    let eidText ← optField "AttributeError: EventID" x.eventID
    let event_id ← pyIntE eidText
    let provider ← optField "AttributeError: Provider" x.provider
    let time_created ← optField "AttributeError: TimeCreated" x.timeCreated
    let levelText ← optField "AttributeError: Level" x.level
    let level ← pyIntE levelText
    let dt ← match pyStrptimeT (String.mk (time_created.data.take 19)) with
             | none => Except.error "ValueError: time data does not match format"
             | some dt => Except.ok dt
    let taskText ← optField "AttributeError: Task" x.task
    let ridText ← optField "AttributeError: EventRecordID" x.recordID
    let record_number ← pyIntE ridText
    let message := ((x.dataFields.filterMap id).filter
      (fun s => ¬ s.data.isEmpty)).map pyStrip
    Except.ok
      { channel := defenderChannelName
        time := strftimeCanon dt
        eventType := map_defender_level level
        eventID := event_id
        eventCategory := .strVal taskText
        source := provider
        message := if message.isEmpty then "No message data" else strJoin " | " message
        recordNumber := record_number }

/-- normalize_defender_logs: total — on any extraction failure it returns
the processing-error placeholder built from the current wall-clock time. -/
def normalize_defender_logs (now : DateTime) (x : DefenderXml) : Event :=
  match normalizeDefenderCore x with
  | .ok ev => ev
  | .error msg =>
    { channel := defenderChannelName
      time := strftimeCanon now
      eventType := "ERROR"
      eventID := 0
      eventCategory := .strVal "Processing Error"
      source := "LogParser"
      message := "Failed to parse event: " ++ msg
      recordNumber := 0 }

/-- The Defender channel as read_defender_log observes it: the successive
EvtNext batches, and whether EvtQuery or some EvtNext call raises (the
surrounding except handler then returns an empty list, discarding even the
events already collected). -/
structure DefenderChannel where
  failed : Bool
  batches : List (List DefenderXml)
deriving DecidableEq, Repr

/-- read_defender_log. -/
def read_defender_log (now : DateTime) (ch : DefenderChannel) : List Event :=
  if ch.failed then [] else ch.batches.flatten.map (normalize_defender_logs now)

/-! ## gather_logs.py: sequential reader with the time-window stop rule -/

def should_include_event (log_levels : List String) (event_type : String) : Bool :=
  log_levels.contains event_type

/-- The inner for loop of read_event_log over one batch: normalizes each
record (a normalization error propagates), appends it when its type passes
the severity filter, and keeps the running seconds variable, whose final
value is the seconds of the last record of the batch. -/
def processBatch (log_levels : List String) (log_type : String) :
    List RawRecord → List Event → Int → Except String (List Event × Int)
  | [], acc, seconds => .ok (acc, seconds)
  | r :: rs, acc, _ =>
    match normalize_logs r log_type with
    | .error e => .error e
    | .ok (ev, s, t) =>
      processBatch log_levels log_type rs
        (if should_include_event log_levels t then acc ++ [ev] else acc) s

/-- The while loop of read_event_log: pulls batches until a read returns no
events, returning early when the seconds of the last record of the batch
fall before the cutoff.  The boolean records whether the listed batches
were exhausted without an early exit, i.e. whether one more read call
would happen. -/
def readLoop (log_levels : List String) (log_type : String) (cutoff : Int) :
    List (List RawRecord) → List Event → Except String (List Event × Bool)
  | [], acc => .ok (acc, true)
  | batch :: rest, acc =>
    if batch.isEmpty then .ok (acc, false)
    else
      match processBatch log_levels log_type batch acc 0 with
      | .error e => .error e
      | .ok (acc2, seconds) =>
        if seconds < cutoff then .ok (acc2, false)
        else readLoop log_levels log_type cutoff rest acc2

/-- The diagnostic head of the message logged for a win32 protocol error,
one per distinguished cause (winerror 5, winerror 1722, everything else). -/
def win32LogHead (e : Int) : String :=
  if e = 5 then "Access denied when connecting to event log "
  else if e = 1722 then "Cannot connect to remote host "
  else "Win32 error occurred: "

def win32LogDetail (log_type hostname : String) (e : Int) : String :=
  if e = 5 then log_type else if e = 1722 then hostname else pyIntRepr e

def win32LogMsg (log_type hostname : String) (e : Int) : String :=
  win32LogHead e ++ win32LogDetail log_type hostname e

/-- A sequential channel as read_event_log observes it: a win32 error from
OpenEventLog if any, the successive ReadEventLog batch results, and a win32
error raised by the read call that would follow the listed batches. -/
structure SeqChannel where
  openErr : Option Int
  batches : List (List RawRecord)
  postErr : Option Int

/-- read_event_log: win32 errors (at open or at a read) are caught and
logged — the second component is the logged diagnostic — while
normalization errors propagate out of the function.  Events gathered before
a mid-stream win32 error are kept, because the handler falls through to
return events_from_log. -/
def read_event_log (log_levels : List String) (begin_sec hours : Int)
    (log_type hostname : String) (ch : SeqChannel) :
    Except String (List Event × Option String) :=
  let cutoff := begin_sec - 3600 * hours
  match ch.openErr with
  | some e => .ok ([], some (win32LogMsg log_type hostname e))
  | none =>
    match readLoop log_levels log_type cutoff ch.batches [] with
    | .error e => .error e
    | .ok (events, exhausted) =>
      if exhausted then
        match ch.postErr with
        | some e => .ok (events, some (win32LogMsg log_type hostname e))
        | none => .ok (events, none)
      else .ok (events, none)

/-! ## gather_logs.py: reachability probe and the gather loop -/

/-- The outcome of the subprocess ping call: a completed run with its return
code, or an exception / timeout (caught by the except handler). -/
inductive PingOutcome
  | completed (rc : Int)
  | raisedOrTimedOut
deriving DecidableEq, Repr

/-- ping_host: true exactly when the probe completed with return code 0;
an exception or timeout yields false, never an error. -/
def ping_host : PingOutcome → Bool
  | .completed rc => rc == 0
  | .raisedOrTimedOut => false

structure Config where
  log_types : List String
  log_levels : List String

/-- Everything gather_events observes about the remote host on one run. -/
structure HostEnv where
  pingOutcome : PingOutcome
  hostname : String
  now : DateTime
  begin_sec : Int
  defender : DefenderChannel
  seqChannel : String → SeqChannel

/-- The result of a run: the gathered events plus the list of channels for
which a handle open was attempted (used to state the reachability gate). -/
structure GatherResult where
  events : List Event
  openedChannels : List String
deriving DecidableEq, Repr

/-- The for loop of gather_events over the configured log types. -/
def gatherLoop (cfg : Config) (env : HostEnv) (hours : Int) :
    List String → Except String GatherResult
  | [] => .ok ⟨[], []⟩
  | log :: rest =>
    let step : Except String (List Event) :=
      if log = defenderChannelName then .ok (read_defender_log env.now env.defender)
      else
        match read_event_log cfg.log_levels env.begin_sec hours log env.hostname
            (env.seqChannel log) with
        | .error e => .error e
        | .ok (es, _) => .ok es
    match step with
    | .error e => .error e
    | .ok es =>
      match gatherLoop cfg env hours rest with
      | .error e => .error e
      | .ok r => .ok ⟨es ++ r.events, log :: r.openedChannels⟩

/-- gather_events: rejects a non-positive window, gates on the ping, and
otherwise extends the (initially empty) event collection channel by
channel. -/
def gather_events (cfg : Config) (env : HostEnv) (hours : Int) :
    Except String GatherResult :=
  if hours ≤ 0 then .error "ValueError: Hours must be a positive number"
  else if ping_host env.pingOutcome then gatherLoop cfg env hours cfg.log_types
  else .ok ⟨[], []⟩

/-! ## gather_logs.py: flat exporter -/

/-- The outcome of save_to_csv: skipped (only logged) when nothing was
gathered, otherwise the written rows, header first. -/
inductive CsvSave
  | skipped
  | written (rows : List (List String))
deriving DecidableEq, Repr

def csvFieldnames : List String :=
  ["Event", "Time", "Event_Type", "Event_ID", "Event_Category", "Source",
   "Message", "RecordNumber"]

def catRepr : CatVal → String
  | .intVal i => pyIntRepr i
  | .strVal s => s

/-- One csv row of an event, fields in the dictionary order (the cell
strings as the csv module reproduces them on reload). -/
def eventToRow (e : Event) : List String :=
  [e.channel, e.time, e.eventType, pyIntRepr e.eventID, catRepr e.eventCategory,
   e.source, e.message, pyIntRepr e.recordNumber]

def csvFileOf (evs : List Event) : List (List String) :=
  csvFieldnames :: evs.map eventToRow

/-- save_to_csv. -/
def save_to_csv (gathered_events : List Event) : CsvSave :=
  match gathered_events with
  | [] => .skipped
  | _ => .written (csvFileOf gathered_events)

/-! ## log_analysis.py: data model and loaders -/

/-- KnownEvent. -/
structure KnownEvent where
  event_id : Int
  severity : String
  description : String
deriving DecidableEq, Repr

/-- LogEvent. -/
structure LogEvent where
  event_id : Int
  log_type : String
  source : String
  event_type : String
  date : String
  message : String
deriving DecidableEq, Repr

/-- The csv.DictReader row access row[f]: the cell of the column named f,
none when the row is shorter than the header (the reader supplies None
there, and every use below then fails the int conversion or is stored
as-is). -/
def lookupField (header row : List String) (f : String) : Option String :=
  match header.findIdx? (fun h => h = f) with
  | none => none
  | some i => row.get? i

/-- A tabular input file for the loaders: the header row followed by the
data rows. -/
structure CsvTable where
  header : List String
  rows : List (List String)
deriving DecidableEq, Repr

/-- What load_reference_events_from_file does on return: a missing file
raises before the try block; everything raised inside the try block is
caught and only logged, the method then returning normally with whatever
entries had been inserted so far. -/
inductive RefLoadOutcome
  | raisedFileNotFound
  | returned (refs : List (Int × KnownEvent)) (loggedError : Option String)
deriving DecidableEq, Repr

/-- dict assignment self.reference_events[event_id] = event: last write
wins. -/
def upsertRef (refs : List (Int × KnownEvent)) (k : Int) (v : KnownEvent) :
    List (Int × KnownEvent) :=
  if refs.any (fun p => p.1 = k) then
    refs.map (fun p => if p.1 = k then (k, v) else p)
  else refs ++ [(k, v)]

/-- The row loop of load_reference_events_from_file; a failing int
conversion raises out of the loop into the catch-all handler, which keeps
the entries already inserted. -/
def loadRefRows (header : List String) :
    List (List String) → List (Int × KnownEvent) → RefLoadOutcome
  | [], acc => .returned acc none
  | row :: rest, acc =>
    if 3 ≤ header.length then
      match (lookupField header row "Event ID").bind pyIntParse with
      | none => .returned acc (some "Error loading reference events")
      | some event_id =>
        loadRefRows header rest (upsertRef acc event_id
          { event_id := event_id
            severity := (lookupField header row "Severity").getD ""
            description := (lookupField header row "Description").getD "" })
    else loadRefRows header rest acc

/-- load_reference_events_from_file: only the missing-file check raises to
the caller; the missing-column ValueError is raised inside the try block
and swallowed by the except handler, which logs and returns normally. -/
def load_reference_events_from_file (file : Option CsvTable) : RefLoadOutcome :=
  match file with
  | none => .raisedFileNotFound
  | some f =>
    if f.header.contains "Event ID" && f.header.contains "Severity"
        && f.header.contains "Description" then
      loadRefRows f.header f.rows []
    else .returned [] (some "CSV file missing required columns")

def requiredLogFields : List String :=
  ["Event_ID", "Event", "Source", "Event_Type", "Time"]

/-- One row of the logs csv turned into a LogEvent; none when the Event_ID
cell fails int conversion (the per-row handler logs and continues). -/
def rowToLogEvent (header row : List String) : Option LogEvent := do
  let eidS ← lookupField header row "Event_ID"
  let event_id ← pyIntParse eidS
  let log_type ← lookupField header row "Event"
  let source ← lookupField header row "Source"
  let event_type ← lookupField header row "Event_Type"
  let date ← lookupField header row "Time"
  some { event_id := event_id
         log_type := log_type
         source := source
         event_type := event_type
         date := date
         message := (lookupField header row "Message").getD "" }

/-- load_logs_from_csv: an empty or column-deficient file makes the
try block raise, the handler returns []; otherwise each row is converted,
rows with a bad Event_ID being skipped. -/
def load_logs_from_csv (file : List (List String)) : List LogEvent :=
  match file with
  | [] => []
  | header :: rows =>
    if requiredLogFields.all (fun f => header.contains f) then
      rows.filterMap (rowToLogEvent header)
    else []

/-! ## log_analysis.py: hierarchical exporter -/

structure SpecificEventJson where
  event_id : Int
  event_type : String
  source : String
  date : String
  message : String
deriving DecidableEq, Repr

structure EventGroupJson where
  event_id : Int
  no_occurances : Nat
  severity : Option String
  description : Option String
  specific_events : List SpecificEventJson
deriving DecidableEq, Repr

structure JsonResults where
  events : List EventGroupJson
deriving DecidableEq, Repr

/-- The sort key datetime.strptime(e.date, canonical format) used inside
save_to_json; the value on an unparseable date is irrelevant because the
sort is skipped in that case. -/
def dateKey (e : LogEvent) : Int :=
  match pyStrptimeB e.date with
  | some dt => dtTimestamp dt
  | none => 0

def specDateKey (s : SpecificEventJson) : Int :=
  match pyStrptimeB s.date with
  | some dt => dtTimestamp dt
  | none => 0

def dateLe (a b : LogEvent) : Prop := dateKey a ≤ dateKey b

instance : DecidableRel dateLe := fun a b => Int.decLe (dateKey a) (dateKey b)

instance : IsTotal LogEvent dateLe := ⟨fun a b => Int.le_total (dateKey a) (dateKey b)⟩

instance : IsTrans LogEvent dateLe :=
  ⟨fun _ _ _ hab hbc => Int.le_trans hab hbc⟩

/-- The in-group sort of save_to_json: list.sort(key=strptime) succeeds and
sorts by the parsed date exactly when every date in the group parses;
otherwise the ValueError is caught, a warning logged, and the group keeps
its load order. -/
def sortSpecific (l : List LogEvent) : List LogEvent :=
  if l.all (fun e => (pyStrptimeB e.date).isSome) then l.insertionSort dateLe else l

/-- set(): the distinct values, here kept in first-appearance order; the
subsequent ascending sort makes the representation order irrelevant. -/
def dedupFirst : List Int → List Int
  | [] => []
  | a :: rest => a :: (dedupFirst rest).filter (fun x => x ≠ a)

def toSpecific (e : LogEvent) : SpecificEventJson :=
  { event_id := e.event_id
    event_type := e.event_type
    source := e.source
    date := e.date
    message := e.message }

/-- save_to_json: one group per distinct EventID in ascending order, with
the occurrence count, the optional reference annotation, and the events of
a group sorted by date when all of its dates parse. -/
def save_to_json (log_events : List LogEvent)
    (reference_events : List (Int × KnownEvent)) : JsonResults :=
  let uniqueIds :=
    List.insertionSort (fun a b : Int => a ≤ b)
      (dedupFirst (log_events.map (fun e => e.event_id)))
  { events := uniqueIds.map (fun i =>
      let specific := log_events.filter (fun e => e.event_id = i)
      let ref := reference_events.lookup i
      { event_id := i
        no_occurances := specific.length
        severity := ref.map (fun r => r.severity)
        description := ref.map (fun r => r.description)
        specific_events := (sortSpecific specific).map toSpecific }) }

/-! ## Decimal rendering and parsing round-trip -/

theorem charDigit_digitChar : ∀ d, d < 10 → charDigit (digitChar d) = some d := by
  decide

theorem digitChar_ne_sign : ∀ d, d < 10 → digitChar d ≠ '-' ∧ digitChar d ≠ '+' := by
  decide

theorem natDigitsAux_lt : ∀ (fuel n d : Nat), d ∈ natDigitsAux fuel n → d < 10 := by
  intro fuel
  induction fuel with
  | zero => intro n d h; simp [natDigitsAux] at h
  | succ m ih =>
    intro n d h
    by_cases hn : n = 0
    · simp [natDigitsAux, hn] at h
    · simp [natDigitsAux, hn] at h
      rcases h with h | h
      · omega
      · exact ih _ _ h

theorem ofDigits_natDigitsAux :
    ∀ (fuel n : Nat), n ≤ fuel → Nat.ofDigits 10 (natDigitsAux fuel n) = n := by
  intro fuel
  induction fuel with
  | zero => intro n h; interval_cases n; simp [natDigitsAux]
  | succ m ih =>
    intro n h
    by_cases hn : n = 0
    · simp [natDigitsAux, hn]
    · have hdiv : n / 10 ≤ m := by
        have : n / 10 < n := Nat.div_lt_self (Nat.pos_of_ne_zero hn) (by norm_num)
        omega
      simp [natDigitsAux, hn, Nat.ofDigits_cons, ih _ hdiv]
      omega

theorem ofDigits_natDigits (n : Nat) : Nat.ofDigits 10 (natDigits n) = n :=
  ofDigits_natDigitsAux n n le_rfl

theorem natDigits_lt (n d : Nat) (h : d ∈ natDigits n) : d < 10 :=
  natDigitsAux_lt n n d h

theorem natDigits_ne_nil (n : Nat) (hn : n ≠ 0) : natDigits n ≠ [] := by
  cases n with
  | zero => exact absurd rfl hn
  | succ m => simp [natDigits, natDigitsAux]

theorem digitsOfChars_map :
    ∀ ds : List Nat, (∀ d ∈ ds, d < 10) →
      digitsOfChars (ds.map digitChar) = some ds := by
  intro ds
  induction ds with
  | nil => intro _; rfl
  | cons d rest ih =>
    intro h
    have hd : d < 10 := h d (by simp)
    have hrest := ih (fun x hx => h x (by simp [hx]))
    simp [digitsOfChars, charDigit_digitChar d hd, hrest]

theorem pyNatParseChars_natDecRepr (n : Nat) :
    pyNatParseChars (natDecRepr n).data = some n := by
  by_cases hn : n = 0
  · subst hn; decide
  · have hmem : ∀ d ∈ (natDigits n).reverse, d < 10 := by
      intro d hd
      exact natDigits_lt n d (List.mem_reverse.mp hd)
    have hparse := digitsOfChars_map (natDigits n).reverse hmem
    have hnil := natDigits_ne_nil n hn
    unfold natDecRepr
    simp only [hn, if_false]
    cases hrev : (natDigits n).reverse with
    | nil => exact absurd (List.reverse_eq_nil_iff.mp hrev) hnil
    | cons c cs =>
      rw [hrev] at hparse
      simp only [List.map_cons] at hparse ⊢
      show pyNatParseChars (digitChar c :: cs.map digitChar) = some n
      unfold pyNatParseChars
      rw [hparse]
      have : (c :: cs).reverse = natDigits n := by
        rw [← hrev, List.reverse_reverse]
      simp [this, ofDigits_natDigits]

theorem natDecRepr_head (n : Nat) :
    ∃ d rest, d < 10 ∧ (natDecRepr n).data = digitChar d :: rest := by
  by_cases hn : n = 0
  · exact ⟨0, [], by norm_num, by subst hn; decide⟩
  · cases hrev : (natDigits n).reverse with
    | nil => exact absurd (List.reverse_eq_nil_iff.mp hrev) (natDigits_ne_nil n hn)
    | cons c cs =>
      refine ⟨c, cs.map digitChar, ?_, ?_⟩
      · exact natDigits_lt n c (List.mem_reverse.mp (hrev ▸ List.mem_cons_self c cs))
      · unfold natDecRepr
        simp [hn, hrev]

theorem pyIntParse_pyIntRepr (i : Int) : pyIntParse (pyIntRepr i) = some i := by
  by_cases hi : i < 0
  · have hneg : -((i.natAbs : Nat) : Int) = i := by omega
    unfold pyIntRepr
    simp only [hi, if_true]
    have hstep : pyIntParse (String.mk ('-' :: (natDecRepr i.natAbs).data))
        = (pyNatParseChars (natDecRepr i.natAbs).data).map (fun n => -(n : Int)) := rfl
    rw [hstep, pyNatParseChars_natDecRepr]
    show some (-((i.natAbs : Nat) : Int)) = some i
    exact congrArg some hneg
  · have hpos : ((i.natAbs : Nat) : Int) = i := by omega
    obtain ⟨d, rest, hd, hdata⟩ := natDecRepr_head i.natAbs
    have hsign := digitChar_ne_sign d hd
    unfold pyIntRepr
    simp only [hi, if_false]
    unfold pyIntParse
    rw [hdata]
    simp only [hsign.1, hsign.2, if_false]
    rw [← hdata, pyNatParseChars_natDecRepr i.natAbs]
    show some (((i.natAbs : Nat) : Int)) = some i
    exact congrArg some hpos

instance exceptDecEq {ε α : Type} [DecidableEq ε] [DecidableEq α] :
    DecidableEq (Except ε α)
  | .error a, .error b =>
    if h : a = b then .isTrue (by rw [h])
    else .isFalse (fun hh => h (by injection hh))
  | .error _, .ok _ => .isFalse (fun hh => Except.noConfusion hh)
  | .ok _, .error _ => .isFalse (fun hh => Except.noConfusion hh)
  | .ok a, .ok b =>
    if h : a = b then .isTrue (by rw [h])
    else .isFalse (fun hh => h (by injection hh))

/-! ## Shared concrete values used by witnesses and counterexamples -/

def epochDT : DateTime := ⟨1970, 1, 1, 0, 0, 0⟩

/-! ## Claim C8: exports on an empty event collection -/

/-- C8: with zero Events gathered the flat exporter writes no file and
signals skipped, while the hierarchical exporter still produces a document
whose events sequence is empty. -/
theorem claim8_empty_exports :
    save_to_csv [] = .skipped
    ∧ ∀ refs : List (Int × KnownEvent), save_to_json [] refs = ⟨[]⟩ :=
  ⟨rfl, fun _ => rfl⟩

/-! ## Claim C9: reachability gate -/

/-- C9: when the ping probe reports the host down, gather_events opens no
log channel and returns an empty event collection without raising; and
ping_host returns false — rather than throwing — on a failed or nonzero
probe. -/
theorem claim9_reachability_gate (cfg : Config) (env : HostEnv) (hours : Int)
    (hh : 0 < hours) (hp : ping_host env.pingOutcome = false) :
    gather_events cfg env hours = .ok ⟨[], []⟩
    ∧ ping_host .raisedOrTimedOut = false
    ∧ ∀ rc : Int, rc ≠ 0 → ping_host (.completed rc) = false := by
  refine ⟨?_, rfl, ?_⟩
  · unfold gather_events
    rw [if_neg (by omega), hp]
    simp
  · intro rc hrc
    simp [ping_host, hrc]

def cfgDown : Config := ⟨["System", "Security"], ["ERROR", "WARNING"]⟩

def envDown : HostEnv :=
  { pingOutcome := .raisedOrTimedOut
    hostname := "192.0.2.1"
    now := epochDT
    begin_sec := 0
    defender := ⟨false, []⟩
    seqChannel := fun _ => ⟨none, [], none⟩ }

theorem claim9_witness : gather_events cfgDown envDown 5 = .ok ⟨[], []⟩ :=
  (claim9_reachability_gate cfgDown envDown 5 (by norm_num) rfl).1

/-! ## Claim C3: reference-table loading on a malformed file -/

def badRefFile : CsvTable := ⟨["Event ID", "Severity"], [["4625", "High"]]⟩

/-- C3: at a reference file whose header lacks the Description column the
loader does not raise — its internal ValueError is swallowed by the
catch-all handler and the method returns normally with an empty table and
only a logged error — while a missing file does raise to the caller. -/
theorem claim3_code_evaluation :
    load_reference_events_from_file (some badRefFile)
      = .returned [] (some "CSV file missing required columns")
    ∧ load_reference_events_from_file none = .raisedFileNotFound :=
  ⟨by decide, rfl⟩

/-! ## Claim C1: the 16-bit mask on Event_ID -/

def xmlBigId : DefenderXml :=
  { renderFails := false
    eventID := some "70000"
    provider := some "Microsoft-Windows-Windows Defender"
    timeCreated := some "2024-01-01T00:00:00.000000000Z"
    level := some "2"
    task := some "Scan"
    recordID := some "12"
    dataFields := [some "payload"] }

/-- C1 as stated: every event produced by either normalization routine has
its Event_ID masked into [0, 65535]. -/
def eventIdAlwaysMaskedClaim : Prop :=
  (∀ (r : RawRecord) (lt : String) (ev : Event) (s : Int) (t : String),
    normalize_logs r lt = .ok (ev, s, t) → 0 ≤ ev.eventID ∧ ev.eventID ≤ 65535)
  ∧ ∀ (now : DateTime) (x : DefenderXml),
      0 ≤ (normalize_defender_logs now x).eventID
      ∧ (normalize_defender_logs now x).eventID ≤ 65535

/-- C1 counterexample: a Defender record whose EventID element reads 70000
is normalized with Event_ID 70000 — normalize_defender_logs applies no
mask. -/
theorem claim1_counterexample : ¬ eventIdAlwaysMaskedClaim := by
  intro h
  have h2 := (h.2 epochDT xmlBigId).2
  have hval : (normalize_defender_logs epochDT xmlBigId).eventID = 70000 := by decide
  rw [hval] at h2
  omega

/-- C1 (amended): the sequential normalize_logs always masks Event_ID to
its lower 16 bits, so its output identifier lies in [0, 65535] whatever the
source identifier; the Defender routine passes the parsed identifier
through unmasked (its placeholder uses 0). -/
theorem claim1_amended (r : RawRecord) (lt : String) (ev : Event) (s : Int)
    (t : String) (h : normalize_logs r lt = .ok (ev, s, t)) :
    0 ≤ ev.eventID ∧ ev.eventID ≤ 65535 := by
  unfold normalize_logs at h
  cases hp : pyStrptimeA r.timeGenerated with
  | none => rw [hp] at h; exact absurd h (by simp)
  | some dt =>
    rw [hp] at h
    simp only [Except.ok.injEq, Prod.mk.injEq] at h
    obtain ⟨hev, -, -⟩ := h
    rw [← hev]
    show 0 ≤ r.eventID % 65536 ∧ r.eventID % 65536 ≤ 65535
    omega

def rawBigId : RawRecord :=
  { timeGenerated := "Thu Jan 01 00:00:00 1970"
    eventType := 1
    eventID := 70000
    eventCategory := 0
    sourceName := "Service Control Manager"
    stringInserts := none
    recordNumber := 7 }

def evBigIdMasked : Event :=
  { channel := "System"
    time := "1970-01-01 00:00:00"
    eventType := "ERROR"
    eventID := 4464
    eventCategory := .intVal 0
    source := "Service Control Manager"
    message := "No message data"
    recordNumber := 7 }

theorem claim1_witness : 0 ≤ evBigIdMasked.eventID ∧ evBigIdMasked.eventID ≤ 65535 :=
  claim1_amended rawBigId "System" evBigIdMasked 0 "ERROR" (by decide)

/-! ## Claim C2: normalization totality and placeholders -/

def badTimeRaw : RawRecord :=
  { timeGenerated := "not a timestamp"
    eventType := 1
    eventID := 1
    eventCategory := 0
    sourceName := "Source"
    stringInserts := none
    recordNumber := 1 }

/-- C2 as stated (the part the code violates): normalize_logs never raises
to its caller, whatever field contents the record carries. -/
def normalizeLogsNeverRaisesClaim : Prop :=
  ∀ (r : RawRecord) (lt : String), ∃ out, normalize_logs r lt = .ok out

/-- C2 counterexample: a record whose generated-time string does not match
the expected format makes normalize_logs raise the strptime ValueError to
its caller instead of emitting a placeholder. -/
theorem claim2_counterexample : ¬ normalizeLogsNeverRaisesClaim := by
  intro h
  obtain ⟨out, hout⟩ := h badTimeRaw "System"
  have herr : normalize_logs badTimeRaw "System"
      = .error "ValueError: time data does not match format" := by decide
  rw [herr] at hout
  exact Except.noConfusion hout

/-- C2 (amended): the Defender normalizer is total — on an irrecoverable
parse failure it returns the OTHER/ERROR placeholder, so the channel emits
exactly one Event per rendered record when the channel read itself does not
fail — whereas the sequential normalize_logs propagates parse errors and
emits no placeholder. -/
theorem claim2_amended (now : DateTime) (ch : DefenderChannel)
    (hf : ch.failed = false) :
    (read_defender_log now ch).length = ch.batches.flatten.length
    ∧ ∀ x : DefenderXml,
        normalizeDefenderCore x = .ok (normalize_defender_logs now x)
        ∨ ((normalize_defender_logs now x).eventType = "ERROR"
           ∧ (normalize_defender_logs now x).eventCategory
              = .strVal "Processing Error") := by
  constructor
  · simp [read_defender_log, hf, Function.comp_def, List.length_map]
  · intro x
    unfold normalize_defender_logs
    cases h : normalizeDefenderCore x with
    | ok ev => exact Or.inl rfl
    | error msg => exact Or.inr ⟨rfl, rfl⟩

def xmlUnparseable : DefenderXml :=
  { renderFails := false
    eventID := some "not a number"
    provider := some "P"
    timeCreated := some "2024-01-01T00:00:00"
    level := some "4"
    task := some "T"
    recordID := some "1"
    dataFields := [] }

def defenderChW : DefenderChannel := ⟨false, [[xmlBigId, xmlUnparseable], [xmlBigId]]⟩

theorem claim2_witness :
    (read_defender_log epochDT defenderChW).length
      = defenderChW.batches.flatten.length :=
  (claim2_amended epochDT defenderChW rfl).1

/-! ## Claim C10: the severity filter applies only to the sequential path -/

theorem normalize_logs_eventType (r : RawRecord) (lt : String) (ev : Event)
    (s : Int) (t : String) (h : normalize_logs r lt = .ok (ev, s, t)) :
    ev.eventType = t := by
  unfold normalize_logs at h
  cases hp : pyStrptimeA r.timeGenerated with
  | none => rw [hp] at h; exact absurd h (by simp)
  | some dt =>
    rw [hp] at h
    simp only [Except.ok.injEq, Prod.mk.injEq] at h
    obtain ⟨hev, -, ht⟩ := h
    rw [← hev, ← ht]

theorem processBatch_filter (log_levels : List String) (log_type : String) :
    ∀ (rs : List RawRecord) (acc : List Event) (s0 : Int)
      (acc2 : List Event) (s2 : Int),
      (∀ e ∈ acc, should_include_event log_levels e.eventType = true) →
      processBatch log_levels log_type rs acc s0 = .ok (acc2, s2) →
      ∀ e ∈ acc2, should_include_event log_levels e.eventType = true := by
  intro rs
  induction rs with
  | nil =>
    intro acc s0 acc2 s2 hacc h
    simp only [processBatch, Except.ok.injEq, Prod.mk.injEq] at h
    rw [← h.1]
    exact hacc
  | cons r rest ih =>
    intro acc s0 acc2 s2 hacc h
    unfold processBatch at h
    cases hn : normalize_logs r log_type with
    | error e => rw [hn] at h; exact absurd h (by simp)
    | ok out =>
      obtain ⟨ev, s, t⟩ := out
      rw [hn] at h
      by_cases hinc : should_include_event log_levels t = true
      · refine ih (acc ++ [ev]) s acc2 s2 ?_ (by rw [← h]; simp [hinc])
        intro e he
        rcases List.mem_append.mp he with he | he
        · exact hacc e he
        · have : e = ev := by simpa using he
          rw [this, normalize_logs_eventType r log_type ev s t hn]
          exact hinc
      · refine ih acc s acc2 s2 hacc (by rw [← h]; simp [hinc])

theorem readLoop_filter (log_levels : List String) (log_type : String)
    (cutoff : Int) :
    ∀ (batches : List (List RawRecord)) (acc : List Event)
      (es : List Event) (ex : Bool),
      (∀ e ∈ acc, should_include_event log_levels e.eventType = true) →
      readLoop log_levels log_type cutoff batches acc = .ok (es, ex) →
      ∀ e ∈ es, should_include_event log_levels e.eventType = true := by
  intro batches
  induction batches with
  | nil =>
    intro acc es ex hacc h
    simp only [readLoop, Except.ok.injEq, Prod.mk.injEq] at h
    rw [← h.1]
    exact hacc
  | cons batch rest ih =>
    intro acc es ex hacc h
    unfold readLoop at h
    by_cases hb : batch.isEmpty
    · rw [if_pos hb] at h
      simp only [Except.ok.injEq, Prod.mk.injEq] at h
      rw [← h.1]
      exact hacc
    · rw [if_neg hb] at h
      cases hp : processBatch log_levels log_type batch acc 0 with
      | error e => rw [hp] at h; exact absurd h (by simp)
      | ok out =>
        obtain ⟨acc2, seconds⟩ := out
        rw [hp] at h
        dsimp only at h
        have hacc2 := processBatch_filter log_levels log_type batch acc 0
          acc2 seconds hacc hp
        by_cases hc : seconds < cutoff
        · rw [if_pos hc] at h
          simp only [Except.ok.injEq, Prod.mk.injEq] at h
          rw [← h.1]
          exact hacc2
        · rw [if_neg hc] at h
          exact ih acc2 es ex hacc2 h

theorem gatherLoop_defender_mem (cfg : Config) (env : HostEnv) (hours : Int) :
    ∀ (logs : List String) (res : GatherResult),
      defenderChannelName ∈ logs →
      gatherLoop cfg env hours logs = .ok res →
      ∀ ev ∈ read_defender_log env.now env.defender, ev ∈ res.events := by
  intro logs
  induction logs with
  | nil => intro res hmem; exact absurd hmem (by simp)
  | cons log rest ih =>
    intro res hmem h ev hev
    unfold gatherLoop at h
    by_cases hlog : log = defenderChannelName
    · rw [if_pos hlog] at h
      cases hr : gatherLoop cfg env hours rest with
      | error e => rw [hr] at h; exact absurd h (by simp)
      | ok r =>
        rw [hr] at h
        simp only [Except.ok.injEq] at h
        rw [← h]
        simp only [List.mem_append]
        exact Or.inl hev
    · rw [if_neg hlog] at h
      have hmem2 : defenderChannelName ∈ rest := by
        rcases List.mem_cons.mp hmem with heq | hm
        · exact absurd heq.symm hlog
        · exact hm
      cases hs : read_event_log cfg.log_levels env.begin_sec hours log env.hostname
          (env.seqChannel log) with
      | error e => rw [hs] at h; exact absurd h (by simp)
      | ok out =>
        obtain ⟨es, lg⟩ := out
        rw [hs] at h
        cases hr : gatherLoop cfg env hours rest with
        | error e => rw [hr] at h; exact absurd h (by simp)
        | ok r =>
          rw [hr] at h
          simp only [Except.ok.injEq] at h
          rw [← h]
          simp only [List.mem_append]
          exact Or.inr (ih r hmem2 hr ev hev)

/-- C10: the configured severity filter is applied only on the sequential
path — every record rendered on the Defender path is normalized and lands
in the output of the channel and in the gathered collection of the run whatever
log_levels contains, whereas every event a sequential channel returns has
passed should_include_event. -/
theorem claim10_filter_only_sequential (log_levels : List String)
    (now : DateTime) (ch : DefenderChannel) (x : DefenderXml)
    (hf : ch.failed = false) (hx : x ∈ ch.batches.flatten) :
    normalize_defender_logs now x ∈ read_defender_log now ch
    ∧ (∀ (begin_sec hours : Int) (lt host : String) (sc : SeqChannel)
        (es : List Event) (lg : Option String),
        read_event_log log_levels begin_sec hours lt host sc = .ok (es, lg) →
        ∀ ev ∈ es, should_include_event log_levels ev.eventType = true)
    ∧ ∀ (cfg : Config) (env : HostEnv) (hours : Int) (res : GatherResult),
        env.now = now → env.defender = ch →
        ping_host env.pingOutcome = true →
        defenderChannelName ∈ cfg.log_types →
        gather_events cfg env hours = .ok res →
        normalize_defender_logs now x ∈ res.events := by
  refine ⟨?_, ?_, ?_⟩
  · unfold read_defender_log
    rw [hf]
    simp only [Bool.false_eq_true, if_false]
    exact List.mem_map_of_mem (normalize_defender_logs now) hx
  · intro begin_sec hours lt host sc es lg h
    unfold read_event_log at h
    cases ho : sc.openErr with
    | some e =>
      rw [ho] at h
      simp only [Except.ok.injEq, Prod.mk.injEq] at h
      rw [← h.1]
      intro ev hev
      exact absurd hev (by simp)
    | none =>
      rw [ho] at h
      dsimp only at h
      cases hl : readLoop log_levels lt (begin_sec - 3600 * hours) sc.batches [] with
      | error e => rw [hl] at h; exact absurd h (by simp)
      | ok out =>
        obtain ⟨events, exhausted⟩ := out
        rw [hl] at h
        dsimp only at h
        have hbase : ∀ e ∈ ([] : List Event),
            should_include_event log_levels e.eventType = true := by simp
        have hfilter := readLoop_filter log_levels lt (begin_sec - 3600 * hours)
          sc.batches [] events exhausted hbase hl
        have hes : es = events := by
          cases exhausted with
          | false =>
            simp only [Bool.false_eq_true, if_false, Except.ok.injEq,
              Prod.mk.injEq] at h
            exact h.1.symm
          | true =>
            simp only [if_true] at h
            cases hpe : sc.postErr with
            | some e =>
              rw [hpe] at h
              simp only [Except.ok.injEq, Prod.mk.injEq] at h
              exact h.1.symm
            | none =>
              rw [hpe] at h
              simp only [Except.ok.injEq, Prod.mk.injEq] at h
              exact h.1.symm
        rw [hes]
        exact hfilter
  · intro cfg env hours res hnow hdef hping hmem h
    unfold gather_events at h
    by_cases hh : hours ≤ 0
    · rw [if_pos hh] at h; exact absurd h (by simp)
    · rw [if_neg hh, if_pos hping] at h
      refine gatherLoop_defender_mem cfg env hours cfg.log_types res hmem h
        (normalize_defender_logs now x) ?_
      rw [hnow, hdef]
      unfold read_defender_log
      rw [hf]
      simp only [Bool.false_eq_true, if_false]
      exact List.mem_map_of_mem (normalize_defender_logs now) hx

def xmlInfoLevel : DefenderXml :=
  { renderFails := false
    eventID := some "1150"
    provider := some "Microsoft-Windows-Windows Defender"
    timeCreated := some "2024-05-06T07:08:09.5Z"
    level := some "4"
    task := some "Health"
    recordID := some "3"
    dataFields := [some "ok"] }

def defenderChInfo : DefenderChannel := ⟨false, [[xmlInfoLevel]]⟩

theorem claim10_witness :
    normalize_defender_logs epochDT xmlInfoLevel
      ∈ read_defender_log epochDT defenderChInfo :=
  (claim10_filter_only_sequential ["ERROR"] epochDT defenderChInfo xmlInfoLevel
    rfl (by decide)).1

/-! ## Claim C4: per-channel protocol errors -/

/-- Every record of every batch of the channel carries a time string the
normalizer can parse (so the only failures left on the channel are win32
protocol errors). -/
def seqChannelWF (ch : SeqChannel) : Bool :=
  ch.batches.all (fun b => b.all (fun r => (recSec r).isSome))

theorem recSec_spec (r : RawRecord) (h : (recSec r).isSome = true) :
    ∃ dt, pyStrptimeA r.timeGenerated = some dt ∧ recSecD r = dtTimestamp dt := by
  unfold recSec at h
  cases hp : pyStrptimeA r.timeGenerated with
  | none => rw [hp] at h; simp at h
  | some dt =>
    refine ⟨dt, rfl, ?_⟩
    unfold recSecD recSec
    rw [hp]
    rfl

theorem normalize_logs_of_parse (r : RawRecord) (lt : String) (dt : DateTime)
    (hp : pyStrptimeA r.timeGenerated = some dt) :
    normalize_logs r lt = .ok
      ({ channel := lt
         time := strftimeCanon dt
         eventType := eventTypeString r.eventType
         eventID := r.eventID.emod 65536
         eventCategory := .intVal r.eventCategory
         source := r.sourceName
         message := normalizeInserts r.stringInserts
         recordNumber := r.recordNumber }, dtTimestamp dt,
       eventTypeString r.eventType) := by
  unfold normalize_logs
  rw [hp]

/-- The running seconds variable after the for loop: the seconds of the last
record of the batch (or the incoming value for an empty batch). -/
def lastSecD : List RawRecord → Int → Int
  | [], s0 => s0
  | r :: rs, _ => lastSecD rs (recSecD r)

theorem processBatch_ok (log_levels : List String) (log_type : String) :
    ∀ (rs : List RawRecord) (acc : List Event) (s0 : Int),
      rs.all (fun r => (recSec r).isSome) = true →
      ∃ acc2, processBatch log_levels log_type rs acc s0
        = .ok (acc2, lastSecD rs s0) := by
  intro rs
  induction rs with
  | nil => intro acc s0 _; exact ⟨acc, rfl⟩
  | cons r rest ih =>
    intro acc s0 hwf
    simp only [List.all_cons, Bool.and_eq_true] at hwf
    obtain ⟨dt, hp, hsec⟩ := recSec_spec r hwf.1
    obtain ⟨acc2, hrec⟩ := ih
      (if should_include_event log_levels (eventTypeString r.eventType)
       then acc ++ [{ channel := log_type
                      time := strftimeCanon dt
                      eventType := eventTypeString r.eventType
                      eventID := r.eventID.emod 65536
                      eventCategory := .intVal r.eventCategory
                      source := r.sourceName
                      message := normalizeInserts r.stringInserts
                      recordNumber := r.recordNumber }] else acc)
      (dtTimestamp dt) hwf.2
    refine ⟨acc2, ?_⟩
    unfold processBatch
    rw [normalize_logs_of_parse r log_type dt hp]
    dsimp only
    have hl : lastSecD (r :: rest) s0 = lastSecD rest (dtTimestamp dt) := by
      show lastSecD rest (recSecD r) = lastSecD rest (dtTimestamp dt)
      rw [hsec]
    rw [hl]
    exact hrec

theorem readLoop_ok (log_levels : List String) (log_type : String)
    (cutoff : Int) :
    ∀ (batches : List (List RawRecord)) (acc : List Event),
      batches.all (fun b => b.all (fun r => (recSec r).isSome)) = true →
      ∃ es ex, readLoop log_levels log_type cutoff batches acc = .ok (es, ex) := by
  intro batches
  induction batches with
  | nil => intro acc _; exact ⟨acc, true, rfl⟩
  | cons batch rest ih =>
    intro acc hwf
    simp only [List.all_cons, Bool.and_eq_true] at hwf
    unfold readLoop
    by_cases hb : batch.isEmpty
    · rw [if_pos hb]; exact ⟨acc, false, rfl⟩
    · rw [if_neg hb]
      obtain ⟨acc2, hrec⟩ := processBatch_ok log_levels log_type batch acc 0 hwf.1
      rw [hrec]
      dsimp only
      by_cases hc : lastSecD batch 0 < cutoff
      · rw [if_pos hc]; exact ⟨acc2, false, rfl⟩
      · rw [if_neg hc]; exact ih acc2 hwf.2

theorem read_event_log_ok (log_levels : List String) (begin_sec hours : Int)
    (lt host : String) (ch : SeqChannel) (hwf : seqChannelWF ch = true) :
    ∃ es lg, read_event_log log_levels begin_sec hours lt host ch
      = .ok (es, lg) := by
  unfold read_event_log
  cases ho : ch.openErr with
  | some e => exact ⟨[], some (win32LogMsg lt host e), rfl⟩
  | none =>
    dsimp only
    obtain ⟨es, ex, hloop⟩ := readLoop_ok log_levels lt
      (begin_sec - 3600 * hours) ch.batches [] hwf
    rw [hloop]
    dsimp only
    cases ex with
    | false => exact ⟨es, none, rfl⟩
    | true =>
      cases hpe : ch.postErr with
      | some e => exact ⟨es, some (win32LogMsg lt host e), rfl⟩
      | none => exact ⟨es, none, rfl⟩

theorem gatherLoop_ok (cfg : Config) (env : HostEnv) (hours : Int) :
    ∀ logs : List String,
      (∀ lg ∈ logs, lg ≠ defenderChannelName →
        seqChannelWF (env.seqChannel lg) = true) →
      ∃ es, gatherLoop cfg env hours logs = .ok ⟨es, logs⟩ := by
  intro logs
  induction logs with
  | nil => exact fun _ => ⟨[], rfl⟩
  | cons log rest ih =>
    intro hwf
    obtain ⟨es2, hrec⟩ := ih (fun lg hm hd => hwf lg (by simp [hm]) hd)
    unfold gatherLoop
    by_cases hlog : log = defenderChannelName
    · rw [if_pos hlog]
      dsimp only
      rw [hrec]
      exact ⟨read_defender_log env.now env.defender ++ es2, rfl⟩
    · rw [if_neg hlog]
      obtain ⟨es1, lg1, hread⟩ := read_event_log_ok cfg.log_levels env.begin_sec
        hours log env.hostname (env.seqChannel log)
        (hwf log (by simp) hlog)
      rw [hread]
      dsimp only
      rw [hrec]
      exact ⟨es1 ++ es2, rfl⟩

/-- C4 as stated: any channel on which a win32 protocol error occurs (at
open or at a later read) contributes zero events. -/
def protocolErrorZeroEventsClaim : Prop :=
  ∀ (log_levels : List String) (begin_sec hours : Int) (lt host : String)
    (ch : SeqChannel) (es : List Event) (lg : Option String),
    (ch.openErr.isSome ∨ ch.postErr.isSome) →
    read_event_log log_levels begin_sec hours lt host ch = .ok (es, lg) →
    es = []

def rawNew2024 : RawRecord :=
  { timeGenerated := "Mon Jan 01 00:00:00 2024"
    eventType := 4
    eventID := 100
    eventCategory := 1
    sourceName := "S"
    stringInserts := none
    recordNumber := 5 }

def seqChMid : SeqChannel := ⟨none, [[rawNew2024]], some 5⟩

def evNew2024 : Event :=
  { channel := "System"
    time := "2024-01-01 00:00:00"
    eventType := "INFORMATION"
    eventID := 100
    eventCategory := .intVal 1
    source := "S"
    message := "No message data"
    recordNumber := 5 }

/-- C4 counterexample: a channel that yields one in-window record and then
fails with access denied on the next read returns the event of that record — a
channel with a protocol error can contribute a non-zero number of
events. -/
theorem claim4_counterexample : ¬ protocolErrorZeroEventsClaim := by
  intro h
  have h2 := h ["INFORMATION"] 1704067210 1 "System" "host" seqChMid
    [evNew2024] (some (win32LogMsg "System" "host" 5))
    (by decide) (by decide)
  exact absurd h2 (by decide)

/-- C4 (amended): a channel whose open fails contributes zero events and
the distinguishable diagnostic is logged; win32 errors at open or mid
stream never escape read_event_log (a mid-stream failure keeps the events
read before it), so with every channel parseable the run visits every
configured channel whatever protocol errors occur. -/
theorem claim4_amended (log_levels : List String) (begin_sec hours : Int)
    (lt host : String) (ch : SeqChannel) :
    (∀ e : Int, ch.openErr = some e →
      read_event_log log_levels begin_sec hours lt host ch
        = .ok ([], some (win32LogMsg lt host e)))
    ∧ (seqChannelWF ch = true → ∃ es lg,
        read_event_log log_levels begin_sec hours lt host ch = .ok (es, lg))
    ∧ (∀ e : Int, e ≠ 5 → e ≠ 1722 →
        win32LogHead 5 ≠ win32LogHead 1722
        ∧ win32LogHead e ≠ win32LogHead 5
        ∧ win32LogHead e ≠ win32LogHead 1722)
    ∧ ∀ (cfg : Config) (env : HostEnv) (hrs : Int),
        0 < hrs → ping_host env.pingOutcome = true →
        (∀ lg ∈ cfg.log_types, lg ≠ defenderChannelName →
          seqChannelWF (env.seqChannel lg) = true) →
        ∃ es, gather_events cfg env hrs = .ok ⟨es, cfg.log_types⟩ := by
  refine ⟨?_, ?_, ?_, ?_⟩
  · intro e ho
    unfold read_event_log
    rw [ho]
  · exact read_event_log_ok log_levels begin_sec hours lt host ch
  · intro e he5 he1722
    have hrw : win32LogHead e = "Win32 error occurred: " := by
      unfold win32LogHead
      rw [if_neg he5, if_neg he1722]
    rw [hrw]
    refine ⟨by decide, by decide, by decide⟩
  · intro cfg env hrs hh hping hwf
    obtain ⟨es, hloop⟩ := gatherLoop_ok cfg env hrs cfg.log_types hwf
    refine ⟨es, ?_⟩
    unfold gather_events
    rw [if_neg (by omega), if_pos hping, hloop]

def cfgRun : Config := ⟨["System", defenderChannelName], ["ERROR"]⟩

def envRun : HostEnv :=
  { pingOutcome := .completed 0
    hostname := "192.0.2.1"
    now := epochDT
    begin_sec := 100
    defender := ⟨false, [[xmlInfoLevel]]⟩
    seqChannel := fun _ => ⟨none, [[rawBigId]], none⟩ }

theorem claim4_witness :
    ∃ es, gather_events cfgRun envRun 2 = .ok ⟨es, cfgRun.log_types⟩ :=
  (claim4_amended [] 0 0 "" "" ⟨none, [], none⟩).2.2.2 cfgRun envRun 2
    (by norm_num) rfl (fun lg _ _ => by
      show seqChannelWF ⟨none, [[rawBigId]], none⟩ = true
      decide)

/-! ## Claim C7: flat export and reload round-trip -/

/-- The LogEvent the loader reconstructs from the row of an Event. -/
def toLogEvent (e : Event) : LogEvent :=
  { event_id := e.eventID
    log_type := e.channel
    source := e.source
    event_type := e.eventType
    date := e.time
    message := e.message }

theorem rowToLogEvent_eventToRow (e : Event) :
    rowToLogEvent csvFieldnames (eventToRow e) = some (toLogEvent e) := by
  unfold rowToLogEvent
  have h1 : lookupField csvFieldnames (eventToRow e) "Event_ID"
      = some (pyIntRepr e.eventID) := rfl
  have h2 : lookupField csvFieldnames (eventToRow e) "Event" = some e.channel := rfl
  have h3 : lookupField csvFieldnames (eventToRow e) "Source" = some e.source := rfl
  have h4 : lookupField csvFieldnames (eventToRow e) "Event_Type"
      = some e.eventType := rfl
  have h5 : lookupField csvFieldnames (eventToRow e) "Time" = some e.time := rfl
  have h6 : lookupField csvFieldnames (eventToRow e) "Message"
      = some e.message := rfl
  rw [h1, h2, h3, h4, h5, h6]
  simp [pyIntParse_pyIntRepr e.eventID, toLogEvent]

/-- C7: exporting a non-empty gathered collection with save_to_csv and
reloading the produced rows with load_logs_from_csv yields the same number
of events and the same EventID multiset as the in-memory collection. -/
theorem claim7_roundtrip (evs : List Event) (hne : evs ≠ []) :
    save_to_csv evs = .written (csvFileOf evs)
    ∧ (load_logs_from_csv (csvFileOf evs)).length = evs.length
    ∧ ((load_logs_from_csv (csvFileOf evs)).map (fun e => e.event_id) : Multiset Int)
        = ((evs.map (fun e => e.eventID)) : Multiset Int) := by
  have hload : load_logs_from_csv (csvFileOf evs) = evs.map toLogEvent := by
    unfold load_logs_from_csv csvFileOf
    dsimp only
    rw [if_pos (by decide)]
    rw [List.filterMap_map]
    have hfun : rowToLogEvent csvFieldnames ∘ eventToRow
        = some ∘ toLogEvent := by
      funext e
      exact rowToLogEvent_eventToRow e
    rw [hfun, List.filterMap_eq_map]
  refine ⟨?_, ?_, ?_⟩
  · cases evs with
    | nil => exact absurd rfl hne
    | cons a rest => rfl
  · rw [hload]
    exact List.length_map evs toLogEvent
  · rw [hload, List.map_map]
    rfl

theorem claim7_witness :
    save_to_csv [evNew2024] = .written (csvFileOf [evNew2024])
    ∧ (load_logs_from_csv (csvFileOf [evNew2024])).length = [evNew2024].length
    ∧ ((load_logs_from_csv (csvFileOf [evNew2024])).map (fun e => e.event_id) :
        Multiset Int)
        = (([evNew2024].map (fun e => e.eventID)) : Multiset Int) :=
  claim7_roundtrip [evNew2024] (by simp)

/-! ## Claim C6: hierarchical exporter ordering and determinism -/

/-- C6 as stated: the exporter always sorts the groups ascending by id and
the events of every group ascending by their date key. -/
def jsonSortedClaim : Prop :=
  ∀ (log_events : List LogEvent) (refs : List (Int × KnownEvent)),
    ((save_to_json log_events refs).events.map (fun g => g.event_id)).Sorted (· ≤ ·)
    ∧ ∀ g ∈ (save_to_json log_events refs).events,
        (g.specific_events.map specDateKey).Sorted (· ≤ ·)

def eBadDate1 : LogEvent := ⟨1, "System", "S", "ERROR", "2024-01-02 00:00:00", ""⟩
def eBadDate2 : LogEvent := ⟨1, "System", "S", "ERROR", "2024-01-01 00:00:00", ""⟩
def eBadDate3 : LogEvent := ⟨1, "System", "S", "ERROR", "bad date", ""⟩

def evsBadDate : List LogEvent := [eBadDate1, eBadDate2, eBadDate3]

def groupBadDate : EventGroupJson :=
  { event_id := 1
    no_occurances := 3
    severity := none
    description := none
    specific_events :=
      [toSpecific eBadDate1, toSpecific eBadDate2, toSpecific eBadDate3] }

/-- C6 counterexample: when a group contains one event whose date does not
parse, the in-group sort raises ValueError, the handler skips sorting, and
the group is written in load order — here with its two parseable events in
descending time order. -/
theorem claim6_counterexample : ¬ jsonSortedClaim := by
  intro h
  have hev : (save_to_json evsBadDate []).events = [groupBadDate] := by decide
  have hg : groupBadDate ∈ (save_to_json evsBadDate []).events := by
    rw [hev]
    exact List.mem_singleton.mpr rfl
  have h3 := (h evsBadDate []).2 groupBadDate hg
  have hmap : groupBadDate.specific_events.map specDateKey
      = [1704153600, 1704067200, 0] := by decide
  rw [hmap] at h3
  simp [List.sorted_cons] at h3

theorem map_proj_of_eq {α β : Type} (f : α → β) (proj : β → α)
    (hf : ∀ a, proj (f a) = a) (l : List α) : (l.map f).map proj = l := by
  induction l with
  | nil => rfl
  | cons a rest ih => simp [hf, ih]

/-- C6 (amended): save_to_json always writes the EventID groups in
ascending id order and is deterministic (it is a pure function of the
loaded events and reference table); within a group the specific events are
written ascending by timestamp provided every date in the collection parses
in the canonical format — a group containing an unparseable date keeps its
load order. -/
theorem claim6_amended (log_events : List LogEvent)
    (refs : List (Int × KnownEvent))
    (hp : log_events.all (fun e => (pyStrptimeB e.date).isSome) = true) :
    ((save_to_json log_events refs).events.map (fun g => g.event_id)).Sorted (· ≤ ·)
    ∧ (∀ g ∈ (save_to_json log_events refs).events,
        (g.specific_events.map specDateKey).Sorted (· ≤ ·))
    ∧ save_to_json log_events refs = save_to_json log_events refs := by
  refine ⟨?_, ?_, rfl⟩
  · unfold save_to_json
    dsimp only
    rw [map_proj_of_eq _ _ (fun i => rfl)]
    exact List.sorted_insertionSort _ _
  · intro g hg
    unfold save_to_json at hg
    dsimp only at hg
    obtain ⟨i, hi, hgi⟩ := List.mem_map.mp hg
    have hall : (log_events.filter (fun e => e.event_id = i)).all
        (fun e => (pyStrptimeB e.date).isSome) = true := by
      rw [List.all_eq_true]
      intro e he
      exact List.all_eq_true.mp hp e (List.mem_of_mem_filter he)
    have hsorted : List.Sorted dateLe
        ((log_events.filter (fun e => e.event_id = i)).insertionSort dateLe) :=
      List.sorted_insertionSort dateLe _
    have hspec : g.specific_events
        = ((log_events.filter (fun e => e.event_id = i)).insertionSort dateLe).map
            toSpecific := by
      rw [← hgi]
      dsimp only
      unfold sortSpecific
      rw [if_pos hall]
    rw [hspec, List.map_map]
    exact List.pairwise_map.mpr hsorted

def evsGoodDates : List LogEvent :=
  [⟨4625, "Security", "S", "ERROR", "2024-01-02 00:00:00", ""⟩,
   ⟨4624, "Security", "S", "INFORMATION", "2024-01-01 00:00:00", ""⟩,
   ⟨4625, "Security", "S", "ERROR", "2024-01-01 12:00:00", ""⟩]

def refsGood : List (Int × KnownEvent) := [(4625, ⟨4625, "High", "Failed logon"⟩)]

theorem claim6_witness :
    ((save_to_json evsGoodDates refsGood).events.map
      (fun g => g.event_id)).Sorted (· ≤ ·) :=
  (claim6_amended evsGoodDates refsGood (by decide)).1

/-! ## Claim C5: the time-window stop rule of the sequential reader -/

/-- The pagination stop rule exactly as the specification words it: after
processing a batch in full, stop pulling further batches as soon as ANY
record of that batch is older than the cutoff.  Written from the spec
sentence for comparison with readLoop, which the code implements. -/
def readLoopAnyOlder (log_levels : List String) (log_type : String)
    (cutoff : Int) :
    List (List RawRecord) → List Event → Except String (List Event × Bool)
  | [], acc => .ok (acc, true)
  | batch :: rest, acc =>
    if batch.isEmpty then .ok (acc, false)
    else
      match processBatch log_levels log_type batch acc 0 with
      | .error e => .error e
      | .ok (acc2, _) =>
        if batch.any (fun r => recSecD r < cutoff) then .ok (acc2, false)
        else readLoopAnyOlder log_levels log_type cutoff rest acc2

/-- C5 as stated: the pagination of the reader behaves as the any-record-older
stop rule on every input. -/
def seqStopAnyOlderClaim : Prop :=
  ∀ (log_levels : List String) (log_type : String) (cutoff : Int)
    (batches : List (List RawRecord)),
    readLoop log_levels log_type cutoff batches []
      = readLoopAnyOlder log_levels log_type cutoff batches []

def exceptLen : Except String (List Event × Bool) → Nat
  | .error _ => 0
  | .ok (es, _) => es.length

def rawOld2023 : RawRecord :=
  { timeGenerated := "Sun Jan 01 00:00:00 2023"
    eventType := 4
    eventID := 1
    eventCategory := 0
    sourceName := "S"
    stringInserts := none
    recordNumber := 1 }

def rawX2024 : RawRecord :=
  { timeGenerated := "Tue Jan 02 00:00:00 2024"
    eventType := 4
    eventID := 2
    eventCategory := 0
    sourceName := "S"
    stringInserts := none
    recordNumber := 2 }

/-- C5 counterexample: a batch holding an older-than-cutoff record followed
by a newer one does not stop the reader — the check uses only the final
record of the batch, so the next batch is still pulled (three events out),
while the any-record rule stops after the first batch (two events out). -/
theorem claim5_counterexample : ¬ seqStopAnyOlderClaim := by
  intro h
  have h2 := congrArg exceptLen
    (h ["INFORMATION"] "System" 1700000000 [[rawOld2023, rawNew2024], [rawX2024]])
  exact absurd h2 (by decide)

/-- Within-batch timestamps are non-increasing (newest first), the order a
backward read produces. -/
def descBySec : List RawRecord → Bool
  | [] => true
  | [_] => true
  | r :: s :: rest => (recSecD s ≤ recSecD r) && descBySec (s :: rest)

theorem lastSecD_min :
    ∀ (batch : List RawRecord) (s0 : Int), descBySec batch = true →
      ∀ r ∈ batch, lastSecD batch s0 ≤ recSecD r := by
  intro batch
  induction batch with
  | nil => intro s0 _ r hr; exact absurd hr (by simp)
  | cons a tail ih =>
    intro s0 hdesc r hr
    cases tail with
    | nil =>
      have hra : r = a := by simpa using hr
      rw [hra]
      show lastSecD [] (recSecD a) ≤ recSecD a
      exact le_refl _
    | cons b rest =>
      have hdesc2 : recSecD b ≤ recSecD a ∧ descBySec (b :: rest) = true := by
        have := hdesc
        unfold descBySec at this
        simpa [Bool.and_eq_true, decide_eq_true_eq] using this
      show lastSecD (b :: rest) (recSecD a) ≤ recSecD r
      rcases List.mem_cons.mp hr with heq | hmem
      · calc lastSecD (b :: rest) (recSecD a) ≤ recSecD b :=
              ih (recSecD a) hdesc2.2 b (by simp)
          _ ≤ recSecD a := hdesc2.1
          _ = recSecD r := by rw [heq]
      · exact ih (recSecD a) hdesc2.2 r hmem

theorem lastSecD_mem :
    ∀ (batch : List RawRecord) (s0 : Int), batch ≠ [] →
      ∃ r ∈ batch, lastSecD batch s0 = recSecD r := by
  intro batch
  induction batch with
  | nil => intro s0 h; exact absurd rfl h
  | cons a tail ih =>
    intro s0 _
    cases tail with
    | nil => exact ⟨a, by simp, rfl⟩
    | cons b rest =>
      obtain ⟨r, hr, heq⟩ := ih (recSecD a) (by simp)
      exact ⟨r, by simp [List.mem_cons.mp hr], heq⟩

theorem stop_iff_any_older (batch : List RawRecord) (cutoff : Int)
    (hne : batch ≠ []) (hdesc : descBySec batch = true) :
    lastSecD batch 0 < cutoff
      ↔ batch.any (fun r => recSecD r < cutoff) = true := by
  constructor
  · intro hlt
    obtain ⟨r, hr, heq⟩ := lastSecD_mem batch 0 hne
    rw [List.any_eq_true]
    exact ⟨r, hr, by rw [decide_eq_true_eq, ← heq]; exact hlt⟩
  · intro hany
    obtain ⟨r, hr, hp⟩ := List.any_eq_true.mp hany
    rw [decide_eq_true_eq] at hp
    exact lt_of_le_of_lt (lastSecD_min batch 0 hdesc r hr) hp

theorem readLoop_eq_anyOlder (log_levels : List String) (log_type : String)
    (cutoff : Int) :
    ∀ (batches : List (List RawRecord)) (acc : List Event),
      batches.all (fun b => b.all (fun r => (recSec r).isSome)) = true →
      batches.all descBySec = true →
      readLoop log_levels log_type cutoff batches acc
        = readLoopAnyOlder log_levels log_type cutoff batches acc := by
  intro batches
  induction batches with
  | nil => intro acc _ _; rfl
  | cons batch rest ih =>
    intro acc hwf hdesc
    simp only [List.all_cons, Bool.and_eq_true] at hwf hdesc
    unfold readLoop readLoopAnyOlder
    by_cases hb : batch.isEmpty
    · rw [if_pos hb, if_pos hb]
    · rw [if_neg hb, if_neg hb]
      have hne : batch ≠ [] := by
        intro hc
        rw [hc] at hb
        exact hb rfl
      obtain ⟨acc2, hrec⟩ := processBatch_ok log_levels log_type batch acc 0 hwf.1
      rw [hrec]
      dsimp only
      by_cases hc : lastSecD batch 0 < cutoff
      · rw [if_pos hc,
          if_pos ((stop_iff_any_older batch cutoff hne hdesc.1).mp hc)]
      · rw [if_neg hc, if_neg (fun hany =>
          hc ((stop_iff_any_older batch cutoff hne hdesc.1).mpr hany))]
        exact ih acc2 hwf.2 hdesc.2

/-- C5 (amended): the reader stops pulling further batches when the FINAL
record of the current batch is older than the cutoff, and the whole batch
it stops on is kept; since a backward read delivers each batch newest
first, on within-batch non-increasing timestamps this coincides with the
claimed stop-as-soon-as-any-record-is-older rule — but on a batch whose
older record is not last the reader keeps pulling. -/
theorem claim5_amended (log_levels : List String) (log_type : String)
    (cutoff : Int) (batches : List (List RawRecord))
    (hwf : batches.all (fun b => b.all (fun r => (recSec r).isSome)) = true)
    (hdesc : batches.all descBySec = true) :
    readLoop log_levels log_type cutoff batches []
      = readLoopAnyOlder log_levels log_type cutoff batches [] :=
  readLoop_eq_anyOlder log_levels log_type cutoff batches [] hwf hdesc

theorem claim5_witness :
    readLoop ["INFORMATION"] "System" 1700000000
        [[rawNew2024, rawOld2023], [rawX2024]] []
      = readLoopAnyOlder ["INFORMATION"] "System" 1700000000
          [[rawNew2024, rawOld2023], [rawX2024]] [] :=
  claim5_amended ["INFORMATION"] "System" 1700000000
    [[rawNew2024, rawOld2023], [rawX2024]] (by decide) (by decide)

end LogPipeline
